import Mathlib

/-
Verification development for the browser task-list manager in src/script.js.

The embedding models:
* the host date primitives used by the code (`new Date(ms)`, `Date.prototype.toISOString`,
  `new Date(isoString)`, `new Date(inputString)`) over `Int` millisecond timestamps;
* the `Task` record and the `TaskManager` operations (`addTask`, `removeTask`,
  `toggleCompleteTask`, `getTaskById`, `sortTasks`, `saveTasks`, `loadTasks`);
* the `localStorage` record under the fixed key `tasks`, at the granularity of the
  JSON value it holds.

`Date.now()` is passed in explicitly as a `now : Nat` parameter wherever the source
calls it, so that properties can be stated for every possible clock reading.
-/

namespace TaskApp

/-- Civil date (year, month, day) to days since 1970-01-01, the standard Gregorian
conversion (Howard Hinnant's `days_from_civil`), which agrees with ECMAScript's
`MakeDay`. On `Int`, `/` and `%` are Euclidean division, which for the positive
divisors used here coincides with floor division, as the algorithm requires. -/
def daysFromCivil (y m d : Int) : Int :=
  let y' := if m ≤ 2 then y - 1 else y
  let era := y' / 400
  let yoe := y' - era * 400
  let mp  := (m + 9) % 12
  let doy := (153 * mp + 2) / 5 + d - 1
  let doe := yoe * 365 + yoe / 4 - yoe / 100 + doy
  era * 146097 + doe - 719468

/-- Day-of-era part of the days-to-civil conversion, using the Neri–Schneider
Euclidean-affine-function decomposition of the 400-year Gregorian cycle
(century, then year of century, then month/day). It computes the same
civil date as ECMAScript's `YearFromTime`/`MonthFromTime`/`DateFromTime`. -/
def civilOfDoe (era doe : Int) : Int × Int × Int :=
  let n1  := 4 * doe + 3
  let c   := n1 / 146097
  let nc  := n1 % 146097 / 4
  let n2  := 4 * nc + 3
  let zz  := n2 / 1461
  let ny  := n2 % 1461 / 4
  let yoe := 100 * c + zz
  let mp  := (5 * ny + 2) / 153
  let d   := ny - (153 * mp + 2) / 5 + 1
  let m   := mp + (if mp < 10 then 3 else -9)
  let y   := yoe + era * 400 + (if m ≤ 2 then 1 else 0)
  (y, m, d)

/-- Days since 1970-01-01 to civil date (year, month, day). -/
def civilFromDays (z : Int) : Int × Int × Int :=
  civilOfDoe ((z + 719468) / 146097) ((z + 719468) % 146097)

/-- Decomposition facts for the Neri–Schneider year extraction: the century `C`,
day-of-century `NC`, year-of-century `Z` and day-of-year `NY` computed from a
day-of-era `doe` are in range and reconstruct `doe`. -/
theorem yoe_decomp (doe C NC Z NY : Int) (h : 0 ≤ doe) (h' : doe < 146097)
    (hC : C = (4*doe+3)/146097) (hNC : NC = (4*doe+3)%146097/4)
    (hZ : Z = (4*NC+3)/1461) (hNY : NY = (4*NC+3)%1461/4) :
    0 ≤ 100*C+Z ∧ 100*C+Z ≤ 399 ∧ 0 ≤ NY ∧ NY ≤ 365 ∧
    365*(100*C+Z) + (100*C+Z)/4 - (100*C+Z)/100 + NY = doe := by
  have hC3 : 0 ≤ C ∧ C ≤ 3 := by omega
  have hCe : C = 0 ∨ C = 1 ∨ C = 2 ∨ C = 3 := by omega
  have e1 : doe = 36524*C + NC ∧ 0 ≤ NC ∧ NC ≤ 36524 := by
    rcases hCe with h4 | h4 | h4 | h4 <;> subst h4 <;> omega
  have hZ99 : 0 ≤ Z ∧ Z ≤ 99 := by omega
  have hrz : Z % 4 = 0 ∨ Z % 4 = 1 ∨ Z % 4 = 2 ∨ Z % 4 = 3 := by omega
  have e2 : NC = 365*Z + Z/4 + NY ∧ 0 ≤ NY ∧ NY ≤ 365 := by
    rcases hrz with h4 | h4 | h4 | h4 <;> omega
  have e3 : (100*C+Z)/100 = C := by omega
  have e4 : (100*C+Z)/4 = 25*C + Z/4 := by omega
  refine ⟨by omega, by omega, e2.2.1, e2.2.2, ?_⟩
  omega

/-- The civil date produced by `civilOfDoe` maps back to the day it came from. -/
theorem daysFromCivil_civilOfDoe (era doe : Int) (h0 : 0 ≤ doe) (h1 : doe < 146097) :
    daysFromCivil (civilOfDoe era doe).1 (civilOfDoe era doe).2.1 (civilOfDoe era doe).2.2
      = era * 146097 + doe - 719468 := by
  unfold civilOfDoe daysFromCivil
  simp only []
  set C := (4*doe+3)/146097 with hC
  set NC := (4*doe+3)%146097/4 with hNC
  set Z := (4*NC+3)/1461 with hZ
  set NY := (4*NC+3)%1461/4 with hNY
  set mp := (5*NY+2)/153 with hmp
  obtain ⟨b1, b2, b3, b4, b5⟩ := yoe_decomp doe C NC Z NY h0 h1 hC hNC hZ hNY
  have hmp1 : 0 ≤ mp ∧ mp ≤ 11 := by omega
  have hEra : (100*C + Z + era*400)/400 = era := by omega
  have hM1 : (mp + 3 + 9) % 12 = mp := by omega
  have hM2 : (mp + -9 + 9) % 12 = mp := by omega
  split <;> split <;>
    (try simp only [add_zero, add_sub_cancel_right, hEra, hM1, hM2]) <;> omega

/-- Round trip: converting a day count to a civil date and back is the identity. -/
theorem daysFromCivil_civilFromDays (z : Int) :
    daysFromCivil (civilFromDays z).1 (civilFromDays z).2.1 (civilFromDays z).2.2 = z := by
  unfold civilFromDays
  rw [daysFromCivil_civilOfDoe _ _ (by omega) (by omega)]
  omega

/-- Shape of the string produced by `Date.prototype.toISOString`
(`YYYY-MM-DDTHH:mm:ss.sssZ`): its numeric fields. The rendering of these fields
as fixed-width decimal digit runs is injective, so the string layer is elided and
the stored `dueDate` string is modelled by this record of its fields. -/
structure ISOForm where
  year : Int
  month : Int
  day : Int
  hour : Int
  minute : Int
  second : Int
  msec : Int
deriving DecidableEq, Repr

/-- Model of `Date.prototype.toISOString` applied to the time value `t`
(milliseconds since the epoch): UTC calendar fields of the instant `t`. -/
def encodeISO (t : Int) : ISOForm :=
  let tod := t % 86400000
  let c := civilFromDays (t / 86400000)
  { year := c.1
    month := c.2.1
    day := c.2.2
    hour := tod / 3600000
    minute := tod % 3600000 / 60000
    second := tod % 60000 / 1000
    msec := tod % 1000 }

/-- Model of `new Date(s)` on a string of `toISOString` shape: the fields denote a
time value when they are a canonical calendar date-time (equivalently, when
re-encoding the candidate time value reproduces the fields — out-of-range fields
such as month 13 or April 31 yield an Invalid Date, modelled as `none`). -/
def decodeISO (f : ISOForm) : Option Int :=
  let t := daysFromCivil f.year f.month f.day * 86400000 +
    (f.hour * 3600000 + f.minute * 60000 + f.second * 1000 + f.msec)
  if encodeISO t = f then some t else none

/-- Parsing the ISO encoding of a time value recovers exactly that time value:
the absolute instant survives the string round trip. -/
theorem decodeISO_encodeISO (t : Int) : decodeISO (encodeISO t) = some t := by
  have h1 : (encodeISO t).year = (civilFromDays (t / 86400000)).1 := rfl
  have h2 : (encodeISO t).month = (civilFromDays (t / 86400000)).2.1 := rfl
  have h3 : (encodeISO t).day = (civilFromDays (t / 86400000)).2.2 := rfl
  have h4 : (encodeISO t).hour = t % 86400000 / 3600000 := rfl
  have h5 : (encodeISO t).minute = t % 86400000 % 3600000 / 60000 := rfl
  have h6 : (encodeISO t).second = t % 86400000 % 60000 / 1000 := rfl
  have h7 : (encodeISO t).msec = t % 86400000 % 1000 := rfl
  have hT : daysFromCivil (encodeISO t).year (encodeISO t).month (encodeISO t).day * 86400000 +
      ((encodeISO t).hour * 3600000 + (encodeISO t).minute * 60000 +
        (encodeISO t).second * 1000 + (encodeISO t).msec) = t := by
    rw [h1, h2, h3, h4, h5, h6, h7, daysFromCivil_civilFromDays]
    omega
  simp only [decodeISO]
  rw [hT]
  simp

/-- Task priority. The UI's select offers exactly the values `High`, `Medium`,
`Low`, and §3 of the data model restricts `priority` to this enumeration. -/
inductive Priority where
  | High
  | Medium
  | Low
deriving DecidableEq, Repr

/-- The lookup object `priorityOrder = { "High": 1, "Medium": 2, "Low": 3 }`
from `sortTasks`. -/
def priorityOrder : Priority → Int
  | .High => 1
  | .Medium => 2
  | .Low => 3

/-- String stored for a priority by `saveTasks` (the field is serialized as-is). -/
def prioString : Priority → String
  | .High => "High"
  | .Medium => "Medium"
  | .Low => "Low"

/-- The `Task` record of src/script.js. `dueDate` is the millisecond time value of
the stored `Date` object (the code validates it, so store tasks hold a valid
instant). -/
structure Task where
  id : String
  name : String
  description : String
  dueDate : Int
  priority : Priority
  isCompleted : Bool
deriving DecidableEq, Repr

/-- The comparator passed to `this.tasks.sort` in `sortTasks`: completion status
first (incomplete first), then `priorityOrder` rank, then `dueDate` difference. -/
def taskCompare (a b : Task) : Int :=
  if a.isCompleted ≠ b.isCompleted then (if a.isCompleted then 1 else -1)
  else if priorityOrder a.priority ≠ priorityOrder b.priority then
    priorityOrder a.priority - priorityOrder b.priority
  else a.dueDate - b.dueDate

/-- The non-strict order induced by the comparator (comparator result at most 0
keeps `a` before `b`). -/
def sortRel (a b : Task) : Prop :=
  taskCompare a b ≤ 0

instance sortRelDecidable : DecidableRel sortRel := fun a b =>
  inferInstanceAs (Decidable (taskCompare a b ≤ 0))

/-- Model of `sortTasks`: `Array.prototype.sort` with a consistent comparator
produces the stable sort of the array by that comparator, which is what a stable
insertion sort by the comparator's non-strict order computes. -/
def sortTasks (ts : List Task) : List Task :=
  ts.insertionSort sortRel

/-- Rank of a completion status in the sort key tuple: incomplete (0) before
completed (1). -/
def completedRank (b : Bool) : Int :=
  if b then 1 else 0

/-- The three-level sort key order of §4.1: lexicographic non-strict order on the
tuple (completion rank, priority rank, due date). -/
def keyLe (a b : Task) : Prop :=
  completedRank a.isCompleted < completedRank b.isCompleted ∨
    (completedRank a.isCompleted = completedRank b.isCompleted ∧
      (priorityOrder a.priority < priorityOrder b.priority ∨
        (priorityOrder a.priority = priorityOrder b.priority ∧ a.dueDate ≤ b.dueDate)))

instance keyLeDecidable (a b : Task) : Decidable (keyLe a b) :=
  inferInstanceAs (Decidable
    (completedRank a.isCompleted < completedRank b.isCompleted ∨
      (completedRank a.isCompleted = completedRank b.isCompleted ∧
        (priorityOrder a.priority < priorityOrder b.priority ∨
          (priorityOrder a.priority = priorityOrder b.priority ∧
            a.dueDate ≤ b.dueDate)))))

/-- The comparator-induced order coincides with the §4.1 key-tuple order. -/
theorem sortRel_iff_keyLe (a b : Task) : sortRel a b ↔ keyLe a b := by
  obtain ⟨ia, na, da, dda, pa, ca⟩ := a
  obtain ⟨ib, nb, db, ddb, pb, cb⟩ := b
  cases ca <;> cases cb <;> cases pa <;> cases pb <;>
    simp [sortRel, taskCompare, keyLe, completedRank, priorityOrder]

theorem keyLe_trans (a b c : Task) (h1 : keyLe a b) (h2 : keyLe b c) : keyLe a c := by
  unfold keyLe at h1 h2 ⊢
  omega

theorem keyLe_total (a b : Task) : keyLe a b ∨ keyLe b a := by
  unfold keyLe
  omega

instance : IsTrans Task keyLe :=
  ⟨keyLe_trans⟩

instance : IsTrans Task sortRel :=
  ⟨fun a b c h1 h2 => (sortRel_iff_keyLe a c).mpr
    (keyLe_trans a b c ((sortRel_iff_keyLe a b).mp h1) ((sortRel_iff_keyLe b c).mp h2))⟩

instance : IsTotal Task sortRel :=
  ⟨fun a b => by
    rcases keyLe_total a b with h | h
    · exact Or.inl ((sortRel_iff_keyLe a b).mpr h)
    · exact Or.inr ((sortRel_iff_keyLe b a).mpr h)⟩

/-- The output of `sortTasks` is ordered by the §4.1 key order, every pair. -/
theorem sortTasks_pairwise (ts : List Task) : (sortTasks ts).Pairwise keyLe :=
  List.Pairwise.imp (fun hab => (sortRel_iff_keyLe _ _).mp hab)
    (List.sorted_insertionSort sortRel ts)

/-- The output of `sortTasks` is a permutation of its input. -/
theorem sortTasks_perm (ts : List Task) : (sortTasks ts).Perm ts :=
  List.perm_insertionSort sortRel ts

/-- Digit value of a character, used by the model of the host date parser. -/
def digitVal (c : Char) : Option Nat :=
  if c.isDigit then some (c.toNat - 48) else none

/-- Two decimal digits. -/
def num2 (a b : Char) : Option Nat := do
  let x ← digitVal a
  let y ← digitVal b
  pure (10 * x + y)

/-- Three decimal digits. -/
def num3 (a b c : Char) : Option Nat := do
  let x ← digitVal a
  let y ← digitVal b
  let z ← digitVal c
  pure (100 * x + 10 * y + z)

/-- Four decimal digits. -/
def num4 (a b c d : Char) : Option Nat := do
  let x ← digitVal a
  let y ← digitVal b
  let z ← digitVal c
  let w ← digitVal d
  pure (1000 * x + 100 * y + 10 * z + w)

/-- Gregorian leap-year test. -/
def isLeap (y : Int) : Bool :=
  decide (y % 4 = 0 ∧ (y % 100 ≠ 0 ∨ y % 400 = 0))

/-- Number of days in a month (0 for an out-of-range month index). -/
def daysInMonth (y : Int) (m : Nat) : Nat :=
  match m with
  | 1 => 31
  | 2 => if isLeap y then 29 else 28
  | 3 => 31
  | 4 => 30
  | 5 => 31
  | 6 => 30
  | 7 => 31
  | 8 => 31
  | 9 => 30
  | 10 => 31
  | 11 => 30
  | 12 => 31
  | _ => 0

/-- Time value for parsed calendar fields, or `none` when a field is out of
range (an invalid date). -/
def mkTimeValue (y mo d hh mi ss ms : Nat) : Option Int :=
  if 1 ≤ mo ∧ mo ≤ 12 ∧ 1 ≤ d ∧ d ≤ daysInMonth y mo ∧ hh ≤ 23 ∧ mi ≤ 59 ∧ ss ≤ 59 then
    some (daysFromCivil y mo d * 86400000 +
      (hh * 3600000 + mi * 60000 + ss * 1000 + ms))
  else none

/-- Drop a single trailing `Z` time-zone designator, if present. -/
def stripZ (cs : List Char) : List Char :=
  if cs.getLast? = some 'Z' then cs.dropLast else cs

/-- Optional seconds and milliseconds part of a time of day. -/
def parseSecMs : List Char → Option (Nat × Nat)
  | [] => some (0, 0)
  | [':', s1, s2] => do
      let ss ← num2 s1 s2
      pure (ss, 0)
  | [':', s1, s2, '.', m1, m2, m3] => do
      let ss ← num2 s1 s2
      let ms ← num3 m1 m2 m3
      pure (ss, ms)
  | _ => none

/-- Model of the host `new Date(string)` constructor used by `addTask` on its
`dueDateStr` argument, for the ECMAScript Date Time String Format
`YYYY-MM-DD[THH:mm[:ss[.sss]]][Z]` (the shape the page's `datetime-local` input
produces). Any other shape, including the empty string, yields an Invalid Date,
modelled as `none`. The host time zone is taken to be UTC, matching the
spec's timezone-naive reading of due dates. -/
def parseDateInput (s : String) : Option Int :=
  match s.toList with
  | [y1, y2, y3, y4, '-', a1, a2, '-', b1, b2] => do
      let y ← num4 y1 y2 y3 y4
      let mo ← num2 a1 a2
      let d ← num2 b1 b2
      mkTimeValue y mo d 0 0 0 0
  | y1 :: y2 :: y3 :: y4 :: '-' :: a1 :: a2 :: '-' :: b1 :: b2 :: 'T' ::
      h1 :: h2 :: ':' :: n1 :: n2 :: rest => do
      let y ← num4 y1 y2 y3 y4
      let mo ← num2 a1 a2
      let d ← num2 b1 b2
      let hh ← num2 h1 h2
      let mi ← num2 n1 n2
      let sm ← parseSecMs (stripZ rest)
      mkTimeValue y mo d hh mi sm.1 sm.2
  | _ => none

/-- One element of the JSON array stored under the `tasks` key, as `loadTasks`
sees it after `JSON.parse`: each expected field may be missing (JavaScript
`undefined`), modelled as `none`. A `dueDate` field that is present but is not a
string of `toISOString` shape behaves like a missing one (both give an Invalid
Date), so both are modelled as `none`. -/
structure RawRecord where
  id : Option String
  name : Option String
  description : Option String
  dueDate : Option ISOForm
  priority : Option String
  isCompleted : Option Bool
deriving DecidableEq, Repr

/-- The state of the `localStorage` record under the fixed key `tasks`:
absent (or the falsy empty string), present but not parseable as JSON
(`JSON.parse` throws), parseable but not an array (the `.map` call throws),
or a JSON array of records. -/
inductive StoredData where
  | absent
  | unparseable
  | nonArray
  | records (rs : List RawRecord)
deriving DecidableEq, Repr

/-- A task as reconstructed by `loadTasks`: the code copies the decoded fields
into a fresh `Task` without validating them, so `name`, `description` and
`priority` may be `undefined` and `dueDate` may be an Invalid Date (`none`).
`isCompleted` falls back to the constructor default `false` when the stored
field is missing, and `id` is always a string (`data.id || Date.now().toString()`). -/
structure LoadedTask where
  id : String
  name : Option String
  description : Option String
  dueDate : Option Int
  priority : Option String
  isCompleted : Bool
deriving DecidableEq, Repr

/-- Record written for one task by `saveTasks`: all six fields present,
`dueDate` encoded with `toISOString`. -/
def saveRecord (t : Task) : RawRecord :=
  { id := some t.id
    name := some t.name
    description := some t.description
    dueDate := some (encodeISO t.dueDate)
    priority := some (prioString t.priority)
    isCompleted := some t.isCompleted }

/-- Model of `saveTasks`: serialize every task to a record with all six fields
and overwrite the stored value. -/
def saveTasks (ts : List Task) : StoredData :=
  .records (ts.map saveRecord)

/-- Reconstruction of one stored record inside `loadTasks`: build the task from
the record's fields, then set `task.id = data.id || Date.now().toString()`
(a missing id, or the falsy empty string, gets a fresh clock-based id). -/
def loadRecord (now : Nat) (r : RawRecord) : LoadedTask :=
  { id := match r.id with
      | some s => if s = "" then toString now else s
      | none => toString now
    name := r.name
    description := r.description
    dueDate := r.dueDate.bind decodeISO
    priority := r.priority
    isCompleted := r.isCompleted.getD false }

/-- Model of `loadTasks`. The boolean is true when the catch branch ran and
logged a load error. An absent record is the first-run state: empty collection,
no error. A record that fails `JSON.parse`, or parses to a value without `.map`,
is caught: error logged, empty collection. A parsed array is mapped over with no
per-record validation. -/
def loadTasks (now : Nat) : StoredData → List LoadedTask × Bool
  | .absent => ([], false)
  | .unparseable => ([], true)
  | .nonArray => ([], true)
  | .records rs => (rs.map (loadRecord now), false)

/-- A store task viewed as the loaded-task shape it round-trips to: every field
present, the due date a valid instant. -/
def toLoose (t : Task) : LoadedTask :=
  { id := t.id
    name := some t.name
    description := some t.description
    dueDate := some t.dueDate
    priority := some (prioString t.priority)
    isCompleted := t.isCompleted }

/-- The mutable state owned by `TaskManager`: the in-memory task array and the
`localStorage` record it persists to. -/
structure ManagerState where
  tasks : List Task
  storage : StoredData
deriving DecidableEq, Repr

/-- The `Task` constructor: fresh id from `Date.now().toString()`,
`isCompleted` defaulting to false. -/
def newTask (now : Nat) (name description : String) (dueDate : Int)
    (priority : Priority) : Task :=
  { id := toString now
    name := name
    description := description
    dueDate := dueDate
    priority := priority
    isCompleted := false }

/-- Model of `addTask`: parse the due date string; on failure (the thrown and
caught invalid-date error) return false and change nothing; on success append a
new task, re-sort, persist, and return true. -/
def addTask (now : Nat) (name description dueDateStr : String) (priority : Priority)
    (s : ManagerState) : Bool × ManagerState :=
  match parseDateInput dueDateStr with
  | none => (false, s)
  | some d =>
      let ts := sortTasks (s.tasks ++ [newTask now name description d priority])
      (true, { tasks := ts, storage := saveTasks ts })

/-- Model of `removeTask`: filter out every task with the given id; persist and
return true exactly when the array got shorter. -/
def removeTask (taskId : String) (s : ManagerState) : Bool × ManagerState :=
  let ts := s.tasks.filter fun t => t.id != taskId
  if ts.length < s.tasks.length then (true, { tasks := ts, storage := saveTasks ts })
  else (false, s)

/-- In-place flip of the first task with the given id, as `find` + mutation does. -/
def toggleFirst (taskId : String) : List Task → List Task
  | [] => []
  | t :: ts =>
      if t.id == taskId then { t with isCompleted := !t.isCompleted } :: ts
      else t :: toggleFirst taskId ts

/-- Model of `toggleCompleteTask`: if a task with the id exists, flip its
completion flag, re-sort, persist, and return true; otherwise return false. -/
def toggleCompleteTask (taskId : String) (s : ManagerState) : Bool × ManagerState :=
  match s.tasks.find? fun t => t.id == taskId with
  | some _ =>
      let ts := sortTasks (toggleFirst taskId s.tasks)
      (true, { tasks := ts, storage := saveTasks ts })
  | none => (false, s)

/-- Model of `getTaskById`: first task with the given id, if any. -/
def getTaskById (taskId : String) (s : ManagerState) : Option Task :=
  s.tasks.find? fun t => t.id == taskId

/-- Loading the record saved for a task with a non-empty id reproduces the task
field-for-field. -/
theorem loadRecord_saveRecord (now : Nat) (t : Task) (h : t.id ≠ "") :
    loadRecord now (saveRecord t) = toLoose t := by
  unfold loadRecord saveRecord toLoose
  simp [h, decodeISO_encodeISO]

/-- A `find?` by id returns the distinguished task when it is the only one in
the list carrying that id. -/
theorem find_eq_of_unique_id (i : String) (t : Task) :
    ∀ l : List Task, t ∈ l → t.id = i → (∀ x ∈ l, x.id = i → x = t) →
      l.find? (fun x => x.id == i) = some t := by
  intro l
  induction l with
  | nil => intro hmem; cases hmem
  | cons a l ih =>
      intro hmem hid huniq
      by_cases ha : a.id = i
      · have hat : a = t := huniq a (List.mem_cons_self a l) ha
        subst hat
        exact List.find?_cons_of_pos l (by simp [ha])
      · rw [List.find?_cons_of_neg l (by simp [ha])]
        rcases List.mem_cons.mp hmem with he | hl
        · exact absurd (he ▸ hid) ha
        · exact ih hl hid fun x hx hxi => huniq x (List.mem_cons_of_mem a hx) hxi

/-- Structure of `toggleFirst` at a successful `find?`: the list splits at the
first task with the id, and exactly that task has its completion flag flipped,
all other tasks and all other fields untouched. -/
theorem toggleFirst_decomp (i : String) (t : Task) :
    ∀ l : List Task, l.find? (fun x => x.id == i) = some t →
      ∃ l1 l2, l = l1 ++ t :: l2 ∧ (∀ x ∈ l1, x.id ≠ i) ∧ t.id = i ∧
        toggleFirst i l =
          l1 ++ ⟨t.id, t.name, t.description, t.dueDate, t.priority, !t.isCompleted⟩ :: l2 := by
  intro l
  induction l with
  | nil => intro h; cases h
  | cons a l ih =>
      intro h
      by_cases ha : a.id = i
      · rw [List.find?_cons_of_pos l (by simp [ha])] at h
        obtain rfl : a = t := Option.some.inj h
        refine ⟨[], l, rfl, by simp, ha, ?_⟩
        simp [toggleFirst, ha]
      · rw [List.find?_cons_of_neg l (by simp [ha])] at h
        obtain ⟨l1, l2, hsplit, hfirst, hid, htog⟩ := ih h
        refine ⟨a :: l1, l2, by simp [hsplit], ?_, hid, ?_⟩
        · intro x hx
          rcases List.mem_cons.mp hx with he | hm
          · exact he ▸ ha
          · exact hfirst x hm
        · simp [toggleFirst, ha, htog]

/-- Sample incomplete high-priority task due 2025-06-01T10:00Z. -/
def sampleA : Task :=
  ⟨"1", "A", "", 1748772000000, .High, false⟩

/-- Sample incomplete low-priority task due 2025-06-01T10:00Z. -/
def sampleB : Task :=
  ⟨"2", "B", "", 1748772000000, .Low, false⟩

/-- C1: after `sortTasks`, for every adjacent pair (a, b) of the collection, a's
sort key tuple (isCompleted with incomplete before completed, priority rank with
High < Medium < Low, dueDate ascending) is less than or equal to b's tuple. -/
theorem claim_C1_sort_adjacent_ordered (ts : List Task) :
    (sortTasks ts).Chain' keyLe :=
  (sortTasks_pairwise ts).chain'

/-- C2: loading after saving reproduces any task collection field-for-field
(id, name, description, due-date instant, priority, isCompleted) in the same
order, with no load error, whenever every id is non-empty — which holds for
every task the store can contain, since both the constructor and the load path
assign non-empty clock-digit ids. A fresh id would be synthesized only for a
stored record whose id field is missing (or the falsy empty string). -/
theorem claim_C2_save_load_round_trip (ts : List Task) (now : Nat)
    (h : ∀ t ∈ ts, t.id ≠ "") :
    loadTasks now (saveTasks ts) = (ts.map toLoose, false) := by
  simp only [saveTasks, loadTasks, List.map_map]
  refine congrArg (fun l => (l, false)) ?_
  exact List.map_congr_left fun t ht => loadRecord_saveRecord now t (h t ht)

/-- C2 witness: the round trip at a concrete one-task collection. -/
theorem claim_C2_witness :
    loadTasks 3 (saveTasks [sampleA]) = ([toLoose sampleA], false) :=
  claim_C2_save_load_round_trip [sampleA] 3 (by decide)

/-- C3 counterexample: `addTask` with an empty name but a valid due-date input
returns success and mutates the store, refuting the claim that an empty or
missing name is rejected with the store left unchanged. -/
theorem claim_C3_counterexample :
    (addTask 0 "" "" "2025-06-01T10:00" Priority.High ⟨[], .absent⟩).1 = true ∧
    (addTask 0 "" "" "2025-06-01T10:00" Priority.High ⟨[], .absent⟩).2.tasks ≠ [] := by
  decide

/-- C3 (amended): `addTask` rejects a due-date input that is empty or does not
parse to a valid timestamp: it returns failure and leaves the store — tasks and
persisted record — completely unchanged. `addTask` itself performs no name
validation; the empty-name check lives in the UI form handler, which refuses to
call `addTask`. -/
theorem claim_C3_add_rejects_bad_due_date (now : Nat)
    (name description dueDateStr : String) (priority : Priority) (s : ManagerState)
    (h : parseDateInput dueDateStr = none) :
    addTask now name description dueDateStr priority s = (false, s) := by
  simp [addTask, h]

/-- C3 witness: rejection at the spec's concrete bad input. -/
theorem claim_C3_witness :
    addTask 0 "T" "" "not-a-date" Priority.High ⟨[], .absent⟩ = (false, ⟨[], .absent⟩) :=
  claim_C3_add_rejects_bad_due_date 0 "T" "" "not-a-date" Priority.High ⟨[], .absent⟩
    (by decide)

/-- C4: `addTask` with a non-empty-or-not name and a due-date input parsing to
the timestamp d returns success, grows the store by exactly one task, and the
new task — isCompleted false, the fresh clock id, the given fields — is the one
`getTaskById` returns for that id; the collection is re-sorted per §4.1 and the
persisted record is the serialization of the new collection. The id-freshness
hypothesis is the §3 uniqueness invariant for the incoming clock reading. -/
theorem claim_C4_add_valid_succeeds (now : Nat)
    (name description dueDateStr : String) (priority : Priority) (s : ManagerState)
    (d : Int) (hparse : parseDateInput dueDateStr = some d)
    (hfresh : ∀ t ∈ s.tasks, t.id ≠ toString now) :
    (addTask now name description dueDateStr priority s).1 = true ∧
    (addTask now name description dueDateStr priority s).2.tasks.length
      = s.tasks.length + 1 ∧
    getTaskById (toString now) (addTask now name description dueDateStr priority s).2
      = some (newTask now name description d priority) ∧
    (newTask now name description d priority).isCompleted = false ∧
    (addTask now name description dueDateStr priority s).2.tasks
      = sortTasks (s.tasks ++ [newTask now name description d priority]) ∧
    (addTask now name description dueDateStr priority s).2.tasks.Chain' keyLe ∧
    (addTask now name description dueDateStr priority s).2.storage
      = saveTasks (addTask now name description dueDateStr priority s).2.tasks := by
  simp only [addTask, hparse, getTaskById]
  refine ⟨by trivial, ?_, ?_, by trivial, by trivial,
    (sortTasks_pairwise _).chain', by trivial⟩
  · rw [(sortTasks_perm _).length_eq]
    simp
  · refine find_eq_of_unique_id (toString now) (newTask now name description d priority)
      _ ?_ rfl ?_
    · exact (sortTasks_perm _).mem_iff.mpr
        (List.mem_append_right _ (List.mem_singleton_self _))
    · intro x hx hxid
      rcases List.mem_append.mp ((sortTasks_perm _).mem_iff.mp hx) with hs' | hnew
      · exact absurd hxid (hfresh x hs')
      · exact List.mem_singleton.mp hnew

/-- C4 witness: a concrete valid add into a store holding one other task. -/
theorem claim_C4_witness :
    (addTask 9 "Buy milk" "" "2025-06-01T10:00" Priority.High
        ⟨[sampleB], saveTasks [sampleB]⟩).1 = true ∧
    (addTask 9 "Buy milk" "" "2025-06-01T10:00" Priority.High
        ⟨[sampleB], saveTasks [sampleB]⟩).2.tasks.length = [sampleB].length + 1 ∧
    getTaskById "9" (addTask 9 "Buy milk" "" "2025-06-01T10:00" Priority.High
        ⟨[sampleB], saveTasks [sampleB]⟩).2
      = some (newTask 9 "Buy milk" "" 1748772000000 Priority.High) ∧
    (newTask 9 "Buy milk" "" 1748772000000 Priority.High).isCompleted = false ∧
    (addTask 9 "Buy milk" "" "2025-06-01T10:00" Priority.High
        ⟨[sampleB], saveTasks [sampleB]⟩).2.tasks
      = sortTasks ([sampleB] ++ [newTask 9 "Buy milk" "" 1748772000000 Priority.High]) ∧
    (addTask 9 "Buy milk" "" "2025-06-01T10:00" Priority.High
        ⟨[sampleB], saveTasks [sampleB]⟩).2.tasks.Chain' keyLe ∧
    (addTask 9 "Buy milk" "" "2025-06-01T10:00" Priority.High
        ⟨[sampleB], saveTasks [sampleB]⟩).2.storage
      = saveTasks (addTask 9 "Buy milk" "" "2025-06-01T10:00" Priority.High
          ⟨[sampleB], saveTasks [sampleB]⟩).2.tasks :=
  claim_C4_add_valid_succeeds 9 "Buy milk" "" "2025-06-01T10:00" Priority.High
    ⟨[sampleB], saveTasks [sampleB]⟩ 1748772000000 (by decide) (by decide)

/-- C5: starting from a store whose order satisfies the §4.1 comparator, after
`addTask`, `removeTask` or `toggleCompleteTask` — whatever their arguments and
whether they report success or failure — the order again satisfies the
comparator; for `removeTask` this holds with no explicit re-sort because
removal takes a sublist of an ordered list. -/
theorem claim_C5_mutations_preserve_order (s : ManagerState)
    (hs : s.tasks.Chain' keyLe) (now : Nat)
    (name description dueDateStr rid tid : String) (priority : Priority) :
    (addTask now name description dueDateStr priority s).2.tasks.Chain' keyLe ∧
    (removeTask rid s).2.tasks.Chain' keyLe ∧
    (toggleCompleteTask tid s).2.tasks.Chain' keyLe := by
  have hp : s.tasks.Pairwise keyLe := List.chain'_iff_pairwise.mp hs
  refine ⟨?_, ?_, ?_⟩
  · unfold addTask
    cases hc : parseDateInput dueDateStr with
    | none => exact hs
    | some d => exact (sortTasks_pairwise _).chain'
  · unfold removeTask
    by_cases hl :
        (s.tasks.filter fun t => t.id != rid).length < s.tasks.length
    · simp only [hl, if_true]
      exact (hp.filter _).chain'
    · simp only [hl, if_false]
      exact hs
  · unfold toggleCompleteTask
    cases hc : s.tasks.find? fun t => t.id == tid with
    | none => exact hs
    | some t => exact (sortTasks_pairwise _).chain'

/-- C5 witness: the three mutations applied to a concrete ordered two-task
store (a successful toggle, a failing remove, a successful add). -/
theorem claim_C5_witness :
    (addTask 7 "N" "" "2025-06-02T08:30" Priority.Medium
        ⟨[sampleA, sampleB], saveTasks [sampleA, sampleB]⟩).2.tasks.Chain' keyLe ∧
    (removeTask "nope"
        ⟨[sampleA, sampleB], saveTasks [sampleA, sampleB]⟩).2.tasks.Chain' keyLe ∧
    (toggleCompleteTask "1"
        ⟨[sampleA, sampleB], saveTasks [sampleA, sampleB]⟩).2.tasks.Chain' keyLe :=
  claim_C5_mutations_preserve_order
    ⟨[sampleA, sampleB], saveTasks [sampleA, sampleB]⟩
    (List.chain'_cons.mpr ⟨by decide, List.chain'_singleton _⟩) 7
    "N" "" "2025-06-02T08:30" "nope" "1" Priority.Medium

/-- C6: when a task with the requested id is in the store, `toggleCompleteTask`
returns success, flips exactly that task's isCompleted (the first with the id;
no other task and no other field changes), re-sorts per §4.1 and persists the
new collection. In particular, for incomplete tasks A(High, day1) and
B(Low, day1), toggling A moves it after B. -/
theorem claim_C6_toggle_flips_and_reorders (s : ManagerState) (taskId : String)
    (t : Task) (hfind : s.tasks.find? (fun x => x.id == taskId) = some t) :
    ((toggleCompleteTask taskId s).1 = true ∧
      (∃ l1 l2, s.tasks = l1 ++ t :: l2 ∧ (∀ x ∈ l1, x.id ≠ taskId) ∧ t.id = taskId ∧
        (toggleCompleteTask taskId s).2.tasks =
          sortTasks
            (l1 ++ ⟨t.id, t.name, t.description, t.dueDate, t.priority, !t.isCompleted⟩ :: l2)) ∧
      (toggleCompleteTask taskId s).2.tasks.Chain' keyLe ∧
      (toggleCompleteTask taskId s).2.storage
        = saveTasks (toggleCompleteTask taskId s).2.tasks) ∧
    (toggleCompleteTask "1" ⟨[sampleA, sampleB], saveTasks [sampleA, sampleB]⟩).2.tasks
      = [sampleB, ⟨"1", "A", "", 1748772000000, .High, true⟩] := by
  refine ⟨⟨?_, ?_, ?_, ?_⟩, by decide⟩
  · simp [toggleCompleteTask, hfind]
  · obtain ⟨l1, l2, hsplit, hfirst, hid, htog⟩ := toggleFirst_decomp taskId t s.tasks hfind
    exact ⟨l1, l2, hsplit, hfirst, hid, by simp [toggleCompleteTask, hfind, htog]⟩
  · simp only [toggleCompleteTask, hfind]
    exact (sortTasks_pairwise _).chain'
  · simp [toggleCompleteTask, hfind]

/-- C6 witness: toggling the high-priority task of the concrete two-task store. -/
theorem claim_C6_witness :
    ((toggleCompleteTask "1"
        ⟨[sampleA, sampleB], saveTasks [sampleA, sampleB]⟩).1 = true ∧
      (∃ l1 l2, [sampleA, sampleB] = l1 ++ sampleA :: l2 ∧
        (∀ x ∈ l1, x.id ≠ "1") ∧ sampleA.id = "1" ∧
        (toggleCompleteTask "1"
            ⟨[sampleA, sampleB], saveTasks [sampleA, sampleB]⟩).2.tasks =
          sortTasks (l1 ++ ⟨sampleA.id, sampleA.name, sampleA.description,
            sampleA.dueDate, sampleA.priority, !sampleA.isCompleted⟩ :: l2)) ∧
      (toggleCompleteTask "1"
          ⟨[sampleA, sampleB], saveTasks [sampleA, sampleB]⟩).2.tasks.Chain' keyLe ∧
      (toggleCompleteTask "1"
          ⟨[sampleA, sampleB], saveTasks [sampleA, sampleB]⟩).2.storage
        = saveTasks (toggleCompleteTask "1"
            ⟨[sampleA, sampleB], saveTasks [sampleA, sampleB]⟩).2.tasks) ∧
    (toggleCompleteTask "1" ⟨[sampleA, sampleB], saveTasks [sampleA, sampleB]⟩).2.tasks
      = [sampleB, ⟨"1", "A", "", 1748772000000, .High, true⟩] :=
  claim_C6_toggle_flips_and_reorders
    ⟨[sampleA, sampleB], saveTasks [sampleA, sampleB]⟩ "1" sampleA (by decide)

/-- C7: for any id held by no task in the store, `removeTask` and
`toggleCompleteTask` both return failure and leave the state — tasks, order and
persisted record — entirely unchanged. -/
theorem claim_C7_missing_id_noops (s : ManagerState) (taskId : String)
    (habs : ∀ t ∈ s.tasks, t.id ≠ taskId) :
    removeTask taskId s = (false, s) ∧ toggleCompleteTask taskId s = (false, s) := by
  constructor
  · have hf : s.tasks.filter (fun t => t.id != taskId) = s.tasks :=
      List.filter_eq_self.mpr fun a ha => by
        simpa [bne_iff_ne] using habs a ha
    simp [removeTask, hf]
  · have hf : s.tasks.find? (fun t => t.id == taskId) = none :=
      List.find?_eq_none.mpr fun x hx => by
        simpa using habs x hx
    simp [toggleCompleteTask, hf]

/-- C7 witness: removing and toggling an unknown id on the concrete store. -/
theorem claim_C7_witness :
    removeTask "zz" ⟨[sampleA, sampleB], saveTasks [sampleA, sampleB]⟩
      = (false, ⟨[sampleA, sampleB], saveTasks [sampleA, sampleB]⟩) ∧
    toggleCompleteTask "zz" ⟨[sampleA, sampleB], saveTasks [sampleA, sampleB]⟩
      = (false, ⟨[sampleA, sampleB], saveTasks [sampleA, sampleB]⟩) :=
  claim_C7_missing_id_noops
    ⟨[sampleA, sampleB], saveTasks [sampleA, sampleB]⟩ "zz" (by decide)

/-- C8 counterexample: a stored record that parses to a JSON array holding one
record with none of the §6 fields is present but not decodable into the
expected structure, yet `loadTasks` returns a non-empty collection containing a
malformed task (undefined name, Invalid-Date due date) and reports no error —
refuting the claim that such input yields an error and an empty collection. -/
theorem claim_C8_counterexample :
    (loadTasks 0 (.records [⟨none, none, none, none, none, none⟩])).1 ≠ [] ∧
    (loadTasks 0 (.records [⟨none, none, none, none, none, none⟩])).2 = false := by
  decide

/-- C8 (amended): `loadTasks` returns an empty collection and no error when no
record exists at the fixed key; it reports a recoverable error and returns an
empty collection when the record is present but not parseable as JSON, or
parses to a value that is not an array. Elements of a parsed array are mapped
to tasks with no validation, so non-conforming records yield malformed tasks
rather than an error. -/
theorem claim_C8_load_error_handling (now : Nat) :
    loadTasks now .absent = ([], false) ∧
    loadTasks now .unparseable = ([], true) ∧
    loadTasks now .nonArray = ([], true) :=
  ⟨rfl, rfl, rfl⟩

/-- C9: two successful `addTask` calls that observe the same `Date.now()`
millisecond (modelled by the same `now` value, which the host clock can return
for consecutive calls) give both tasks the id `"5"`, so the store holds two
distinct tasks with equal ids — the id-uniqueness invariant the spec states,
and §9 itself flags as a latent correctness gap of the clock-based generator. -/
theorem claim_C9_same_tick_ids_collide :
    (addTask 5 "A" "" "2025-06-01T10:00" Priority.High ⟨[], .absent⟩).1 = true ∧
    (addTask 5 "B" "" "2025-06-01T10:00" Priority.Low
        (addTask 5 "A" "" "2025-06-01T10:00" Priority.High ⟨[], .absent⟩).2).1 = true ∧
    ¬ ((addTask 5 "B" "" "2025-06-01T10:00" Priority.Low
        (addTask 5 "A" "" "2025-06-01T10:00" Priority.High
          ⟨[], .absent⟩).2).2.tasks.map Task.id).Nodup := by
  decide

/-- C10: a successful `addTask` leaves every pre-existing task present with all
fields unchanged: the resulting collection is exactly a permutation of the old
tasks plus the one new task. -/
theorem claim_C10_add_frame (now : Nat)
    (name description dueDateStr : String) (priority : Priority) (s : ManagerState)
    (d : Int) (hparse : parseDateInput dueDateStr = some d) :
    (addTask now name description dueDateStr priority s).1 = true ∧
    (addTask now name description dueDateStr priority s).2.tasks.Perm
      (s.tasks ++ [newTask now name description d priority]) ∧
    s.tasks ⊆ (addTask now name description dueDateStr priority s).2.tasks := by
  simp only [addTask, hparse]
  refine ⟨by trivial, sortTasks_perm _, fun t ht => ?_⟩
  exact (sortTasks_perm _).mem_iff.mpr (List.mem_append_left _ ht)

/-- C10 witness: the frame property at a concrete add into a one-task store. -/
theorem claim_C10_witness :
    (addTask 9 "N" "D" "2025-06-01T10:00" Priority.Medium
        ⟨[sampleA], saveTasks [sampleA]⟩).1 = true ∧
    (addTask 9 "N" "D" "2025-06-01T10:00" Priority.Medium
        ⟨[sampleA], saveTasks [sampleA]⟩).2.tasks.Perm
      ([sampleA] ++ [newTask 9 "N" "D" 1748772000000 Priority.Medium]) ∧
    [sampleA] ⊆ (addTask 9 "N" "D" "2025-06-01T10:00" Priority.Medium
        ⟨[sampleA], saveTasks [sampleA]⟩).2.tasks :=
  claim_C10_add_frame 9 "N" "D" "2025-06-01T10:00" Priority.Medium
    ⟨[sampleA], saveTasks [sampleA]⟩ 1748772000000 (by decide)

end TaskApp
